import Mathlib

/-!
# Verification of the change-detection engine of github-releases-notifier

Shallow embedding of `releasechecker.go` (the `Checker` type: `LoadReleases`,
`SaveReleases`, `Run`, `query`) and of the data model (`Repository`, `Release`).
The struct fields of `Repository` and `Release` are read off the composite
literal built at the end of `Checker.query`; timestamps (`time.Time`) are
modelled as integers, with `a.After(b)` becoming `b < a`.
-/

/-- Release models the Go struct `Release` (one release of a repository), with
field names and order taken from the composite literal in `Checker.query`;
`PublishedAt` (a `time.Time`) is modelled as an integer timestamp. -/
structure Release where
  ID : String
  Name : String
  Description : String
  URL : String
  PublishedAt : Int
  deriving Repr, DecidableEq

/-- Repository models the Go struct `Repository` (a watched repository together
with its most recently observed release), with field names and order taken
from the composite literal in `Checker.query`. -/
structure Repository where
  ID : String
  Name : String
  Owner : String
  Description : String
  URL : String
  Release : Release
  deriving Repr, DecidableEq

/-- ReleaseMap models the Go map `map[string]Repository` (field `Checker.releases`)
as an association list from watch key to repository snapshot. -/
abbrev ReleaseMap := List (String × Repository)

/-- lookupRel models a Go map read `c.releases[repoName]` together with the
`ok` flag: `some` when the key is present, `none` when absent. -/
def lookupRel : ReleaseMap → String → Option Repository
  | [], _ => none
  | (k, v) :: rest, key => if k = key then some v else lookupRel rest key

/-- insertRel models a Go map write `c.releases[repoName] = nextRepo`:
it replaces the binding when the key is present and appends it otherwise. -/
def insertRel : ReleaseMap → String → Repository → ReleaseMap
  | [], key, v => [(key, v)]
  | (k, w) :: rest, key, v =>
    if k = key then (key, v) :: rest else (k, w) :: insertRel rest key v

theorem lookupRel_insertRel_self (m : ReleaseMap) (k : String) (v : Repository) :
    lookupRel (insertRel m k v) k = some v := by
  induction m with
  | nil => simp [insertRel, lookupRel]
  | cons hd tl ih =>
    obtain ⟨k', v'⟩ := hd
    by_cases h : k' = k
    · simp [insertRel, lookupRel, h]
    · simp [insertRel, lookupRel, h, ih]

theorem lookupRel_insertRel_ne (m : ReleaseMap) (k k' : String) (v : Repository)
    (h : k' ≠ k) : lookupRel (insertRel m k v) k' = lookupRel m k' := by
  induction m with
  | nil => simp [insertRel, lookupRel, if_neg (Ne.symm h)]
  | cons hd tl ih =>
    obtain ⟨k₀, v₀⟩ := hd
    by_cases h₀ : k₀ = k
    · subst h₀
      simp [insertRel, lookupRel, if_neg (Ne.symm h)]
    · simp only [insertRel, if_neg h₀]
      by_cases h₁ : k₀ = k'
      · simp [lookupRel, h₁]
      · simp [lookupRel, h₁, ih]

/-!
## The persisted state file

`SaveReleases` serialises `c.releases` with `encoding/json` and rewrites the
file; `LoadReleases` reads the file and deserialises it.  The JSON document is
modelled as a tree (`Json`), and the codec for the two structs follows the
default `encoding/json` behaviour for the fields above: an object holding one
member per exported struct field, keyed by the field name (the repository
declares no struct tags in the code under verification; `models.go` is not part
of the sources, so the key names follow the spec, which states the schema is
exactly the snapshot fields).
-/

/-- Json models the JSON documents handled by `encoding/json`: the subset
needed for the persisted state (strings, integer timestamps, objects). -/
inductive Json where
  | str : String → Json
  | num : Int → Json
  | obj : List (String × Json) → Json

/-- marshalRelease models the `encoding/json` serialisation of a `Release`
value: one object member per exported field, in declaration order. -/
def marshalRelease (r : Release) : Json :=
  .obj [("ID", .str r.ID), ("Name", .str r.Name),
        ("Description", .str r.Description), ("URL", .str r.URL),
        ("PublishedAt", .num r.PublishedAt)]

/-- unmarshalRelease models the `encoding/json` deserialisation of a `Release`
from the document shape that `marshalRelease` writes. -/
def unmarshalRelease : Json → Option Release
  | .obj [("ID", .str i), ("Name", .str n),
          ("Description", .str d), ("URL", .str u),
          ("PublishedAt", .num p)] => some ⟨i, n, d, u, p⟩
  | _ => none

/-- marshalRepository models the `encoding/json` serialisation of a
`Repository` value. -/
def marshalRepository (r : Repository) : Json :=
  .obj [("ID", .str r.ID), ("Name", .str r.Name), ("Owner", .str r.Owner),
        ("Description", .str r.Description), ("URL", .str r.URL),
        ("Release", marshalRelease r.Release)]

/-- unmarshalRepository models the `encoding/json` deserialisation of a
`Repository` from the document shape that `marshalRepository` writes. -/
def unmarshalRepository : Json → Option Repository
  | .obj [("ID", .str i), ("Name", .str n), ("Owner", .str o),
          ("Description", .str d), ("URL", .str u),
          ("Release", rel)] =>
    match unmarshalRelease rel with
    | some r => some ⟨i, n, o, d, u, r⟩
    | none => none
  | _ => none

/-- marshalMap models `json.MarshalIndent(c.releases, ...)`: the map becomes a
JSON object with one member per binding. -/
def marshalMap (m : ReleaseMap) : Json :=
  .obj (m.map fun kv => (kv.1, marshalRepository kv.2))

/-- unmarshalEntries decodes the members of the top-level object back into
map bindings, failing if any member fails to decode. -/
def unmarshalEntries : List (String × Json) → Option ReleaseMap
  | [] => some []
  | (k, j) :: rest =>
    match unmarshalRepository j, unmarshalEntries rest with
    | some r, some m => some ((k, r) :: m)
    | _, _ => none

/-- unmarshalMap models `json.Unmarshal(data, &c.releases)`. -/
def unmarshalMap : Json → Option ReleaseMap
  | .obj entries => unmarshalEntries entries
  | _ => none

theorem unmarshalRelease_marshalRelease (r : Release) :
    unmarshalRelease (marshalRelease r) = some r := rfl

theorem unmarshalRepository_marshalRepository (r : Repository) :
    unmarshalRepository (marshalRepository r) = some r := by
  simp [marshalRepository, unmarshalRepository, unmarshalRelease_marshalRelease]

theorem unmarshalMap_marshalMap (m : ReleaseMap) :
    unmarshalMap (marshalMap m) = some m := by
  induction m with
  | nil => rfl
  | cons hd tl ih =>
    have ih' : unmarshalEntries (tl.map fun kv => (kv.1, marshalRepository kv.2))
        = some tl := by
      simpa [marshalMap, unmarshalMap] using ih
    simp [marshalMap, unmarshalMap, unmarshalEntries,
      unmarshalRepository_marshalRepository, ih']

/-- LoadError distinguishes the two failure modes of `LoadReleases`:
a read failure other than `IsNotExist`, and a JSON unmarshal failure. -/
inductive LoadError where
  | readFailed
  | unmarshalFailed
  deriving Repr, DecidableEq

/-- ReadResult models the outcome of `os.ReadFile(c.filepath)`:
the file does not exist, the read fails with some other error, or the read
succeeds and yields the file content (as the JSON document it holds). -/
inductive ReadResult where
  | notExist
  | readError
  | content : Json → ReadResult

/-- LoadReleases models `Checker.LoadReleases`: a missing file yields the
empty map (and no error), any other read failure is surfaced as an error, and
content that fails to unmarshal is surfaced as an error. -/
def LoadReleases : ReadResult → Except LoadError ReleaseMap
  | .notExist => .ok []
  | .readError => .error .readFailed
  | .content j =>
    match unmarshalMap j with
    | some m => .ok m
    | none => .error .unmarshalFailed

/-- initReleases models the load step at the top of `Checker.Run` (lines
57-63): on a load error the engine logs and continues with a fresh empty map. -/
def initReleases (r : ReadResult) : ReleaseMap :=
  match LoadReleases r with
  | .ok m => m
  | .error _ => []

/-!
## The cycle loop of `Checker.Run`

One pass of the inner `for _, repoName := range repositories` loop.  External
effects are modelled explicitly: the GitHub query is an oracle from owner and
name to a result, a save attempt either succeeds (the file now holds the
marshalled map) or fails (the file is untouched), and values sent on the
`releases` channel are collected in a list.  Each step also records a trace of
the observable actions, in the order the statements execute.
-/

/-- EngineState is the state the cycle loop reads and writes: the in-memory
map `c.releases` and the durable file (`none` when it does not exist). -/
structure EngineState where
  releases : ReleaseMap
  file : Option Json

/-- Event records one observable action of the loop body, in statement order:
reading `c.releases[repoName]`, sending on the `releases` channel, writing
`c.releases[repoName]`, and calling `SaveReleases` (with the map it marshals
and whether the write succeeded). -/
inductive Event where
  | readKey : String → Event
  | send : Repository → Event
  | store : String → Repository → Event
  | saveCall : ReleaseMap → Bool → Event

/-- processKey models the body of the inner loop of `Checker.Run` (lines
70-118) after the query result is known: on a query error the iteration is
skipped; on a first observation the snapshot is stored and a save is
attempted; on a strictly newer release (Go `nextRepo.Release.PublishedAt.After
(currRepo.Release.PublishedAt)`, i.e. strictly greater) the snapshot is sent
on the channel, stored, and a save is attempted; otherwise nothing happens.
Returns the new state, the values sent on the channel, and the event trace. -/
def processKey (st : EngineState) (repoName : String)
    (qres : Except String Repository) (saveOk : Bool) :
    EngineState × List Repository × List Event :=
  match qres with
  | .error _ => (st, [], [])
  | .ok nextRepo =>
    match lookupRel st.releases repoName with
    | none =>
      let m := insertRel st.releases repoName nextRepo
      (⟨m, if saveOk then some (marshalMap m) else st.file⟩, [],
       [.readKey repoName, .store repoName nextRepo, .saveCall m saveOk])
    | some currRepo =>
      if currRepo.Release.PublishedAt < nextRepo.Release.PublishedAt then
        let m := insertRel st.releases repoName nextRepo
        (⟨m, if saveOk then some (marshalMap m) else st.file⟩, [nextRepo],
         [.readKey repoName, .send nextRepo, .store repoName nextRepo,
          .saveCall m saveOk])
      else (st, [], [.readKey repoName])

/-- splitSlashAux splits a character list at every slash, accumulating the
current component in reverse. -/
def splitSlashAux : List Char → List Char → List String
  | [], acc => [String.mk acc.reverse]
  | c :: rest, acc =>
    if c = '/' then String.mk acc.reverse :: splitSlashAux rest []
    else splitSlashAux rest (c :: acc)

/-- goSplitSlash models Go `strings.Split(repoName, "/")`: the parts of the
string around each slash; a string with no slash yields one part, so the
result always has at least one element and `s[1]` exists iff there are at
least two. -/
def goSplitSlash (s : String) : List String := splitSlashAux s.data []

/-- parseWatchKey models lines 67-68 of `Checker.Run`
(`s := strings.Split(repoName, "/"); owner, name := s[0], s[1]`):
`some (owner, name)` when the split has at least two components, `none` when
it has fewer, in which case the Go code panics with an index-out-of-range
runtime error at `s[1]`. -/
def parseWatchKey (repoName : String) : Option (String × String) :=
  match goSplitSlash repoName with
  | owner :: name :: _ => some (owner, name)
  | _ => none

/-- runCycle models one pass over the watch list in `Checker.Run` (lines
66-119), parsing each key, querying via the oracle `q` and attempting saves
with outcome `w`; it returns `none` when some key has no slash, modelling the
index-out-of-range panic that aborts the loop, and otherwise the final state
and the values sent on the channel, in order. -/
def runCycle (q : String → String → Except String Repository)
    (w : String → Bool) : List String → EngineState →
    Option (EngineState × List Repository)
  | [], st => some (st, [])
  | repoName :: rest, st =>
    match parseWatchKey repoName with
    | none => none
    | some (owner, name) =>
      let res := processKey st repoName (q owner name) (w repoName)
      match runCycle q w rest res.1 with
      | none => none
      | some (st', out) => some (st', res.2.1 ++ out)

/-!
## The query adapter `Checker.query`

The GraphQL response is modelled by `RawRepo`: the repository fields the
query selects, with the two `githubv4.ID` fields (Go `interface` values)
modelled by `GoValue`, which either holds a string or holds something that is
not a string, and the release connection modelled by the list of edge nodes
(the query asks for `last: 1` ordered by `CREATED_AT` ascending and the code
reads `Edges[0]`).
-/

/-- GoValue models a Go `interface` value (`githubv4.ID`) as seen by the
type assertion `.(string)`: either a string or a value of some other type. -/
inductive GoValue where
  | str : String → GoValue
  | nonString : GoValue
  deriving Repr, DecidableEq

/-- RawReleaseNode models one node of the release connection returned by the
GraphQL query in `Checker.query`. -/
structure RawReleaseNode where
  ID : GoValue
  Name : String
  Description : String
  URL : String
  PublishedAt : Int
  deriving Repr, DecidableEq

/-- RawRepo models the repository object returned by the GraphQL query in
`Checker.query`; `Edges` is the list of release edge nodes. -/
structure RawRepo where
  ID : GoValue
  Name : String
  Description : String
  URL : String
  Edges : List RawReleaseNode
  deriving Repr, DecidableEq

/-- query models `Checker.query` (lines 127-190) given the transport outcome:
a transport error is returned as-is; then the repository ID must be a string,
the release list must be non-empty, and the first edge's release ID must be a
string, each failure being an error; on success the response is translated
into a `Repository` whose `Owner` is the queried owner. -/
def query (owner : String) (resp : Except String RawRepo) :
    Except String Repository :=
  match resp with
  | .error e => .error e
  | .ok repo =>
    match repo.ID with
    | .nonString => .error "cannot convert repository id to string"
    | .str repositoryID =>
      match repo.Edges with
      | [] => .error "cannot find any releases"
      | latestRelease :: _ =>
        match latestRelease.ID with
        | .nonString => .error "cannot convert release id to string"
        | .str releaseID =>
          .ok ⟨repositoryID, repo.Name, owner, repo.Description, repo.URL,
               ⟨releaseID, latestRelease.Name, latestRelease.Description,
                latestRelease.URL, latestRelease.PublishedAt⟩⟩

/-!
## Sample data used by the concrete-witness theorems
-/

/-- sampleRepoV1 is the repository snapshot of concrete scenario 1 of the
spec: release v1.0.0. -/
def sampleRepoV1 : Repository :=
  ⟨"MDEwOlJl", "widget", "acme", "a widget", "https-url",
   ⟨"rel-1", "v1.0.0", "first", "https-url-1", 100⟩⟩

/-- sampleRepoV2 is the repository snapshot of concrete scenario 2 of the
spec: release v1.1.0, published later than v1.0.0. -/
def sampleRepoV2 : Repository :=
  ⟨"MDEwOlJl", "widget", "acme", "a widget", "https-url",
   ⟨"rel-2", "v1.1.0", "second", "https-url-2", 200⟩⟩

/-- sampleState is an engine state whose map holds scenario 1's snapshot
under its watch key. -/
def sampleState : EngineState :=
  ⟨[("acme/widget", sampleRepoV1)], some (marshalMap [("acme/widget", sampleRepoV1)])⟩

/-!
## C1 - C10: the claims
-/

/-- C1: for a key already present with stored timestamp `T`, a step whose
query succeeds with `publishedAt ≤ T` sends nothing on the channel and leaves
the whole state (map entry and persisted file) unchanged, while `publishedAt
> T` sends exactly that snapshot and replaces the stored entry with it. -/
theorem run_strict_monotonicity (st : EngineState) (repoName : String)
    (currRepo nextRepo : Repository) (saveOk : Bool)
    (hcurr : lookupRel st.releases repoName = some currRepo) :
    (nextRepo.Release.PublishedAt ≤ currRepo.Release.PublishedAt →
      processKey st repoName (.ok nextRepo) saveOk
        = (st, [], [.readKey repoName]))
    ∧ (currRepo.Release.PublishedAt < nextRepo.Release.PublishedAt →
      (processKey st repoName (.ok nextRepo) saveOk).2.1 = [nextRepo]
      ∧ lookupRel (processKey st repoName (.ok nextRepo) saveOk).1.releases
          repoName = some nextRepo) := by
  constructor
  · intro hle
    simp [processKey, hcurr, not_lt.mpr hle]
  · intro hlt
    simp [processKey, hcurr, hlt, lookupRel_insertRel_self]

/-- C1 witness: both halves of the strict-monotonicity law at scenario 2's
concrete inputs (stored v1.0.0 at time 100, queried v1.1.0 at time 200). -/
theorem run_strict_monotonicity_witness :
    lookupRel sampleState.releases "acme/widget" = some sampleRepoV1
    ∧ ((sampleRepoV1.Release.PublishedAt ≤ sampleRepoV1.Release.PublishedAt →
        processKey sampleState "acme/widget" (.ok sampleRepoV1) true
          = (sampleState, [], [.readKey "acme/widget"]))
      ∧ (sampleRepoV1.Release.PublishedAt < sampleRepoV1.Release.PublishedAt →
        (processKey sampleState "acme/widget" (.ok sampleRepoV1) true).2.1
          = [sampleRepoV1]
        ∧ lookupRel (processKey sampleState "acme/widget"
            (.ok sampleRepoV1) true).1.releases "acme/widget"
          = some sampleRepoV1))
    ∧ ((sampleRepoV2.Release.PublishedAt ≤ sampleRepoV1.Release.PublishedAt →
        processKey sampleState "acme/widget" (.ok sampleRepoV2) true
          = (sampleState, [], [.readKey "acme/widget"]))
      ∧ (sampleRepoV1.Release.PublishedAt < sampleRepoV2.Release.PublishedAt →
        (processKey sampleState "acme/widget" (.ok sampleRepoV2) true).2.1
          = [sampleRepoV2]
        ∧ lookupRel (processKey sampleState "acme/widget"
            (.ok sampleRepoV2) true).1.releases "acme/widget"
          = some sampleRepoV2)) :=
  ⟨rfl,
   run_strict_monotonicity sampleState "acme/widget" sampleRepoV1 sampleRepoV1
     true rfl,
   run_strict_monotonicity sampleState "acme/widget" sampleRepoV1 sampleRepoV2
     true rfl⟩

/-- C2: for a key absent from the map, a successful query stores the snapshot
under that key, attempts to persist the new state (the file holds the
marshalled new map when the write succeeds), and sends nothing on the
channel, regardless of the snapshot's timestamp. -/
theorem run_baseline (st : EngineState) (repoName : String)
    (nextRepo : Repository) (saveOk : Bool)
    (habs : lookupRel st.releases repoName = none) :
    processKey st repoName (.ok nextRepo) saveOk
      = (⟨insertRel st.releases repoName nextRepo,
          if saveOk then
            some (marshalMap (insertRel st.releases repoName nextRepo))
          else st.file⟩, [],
         [.readKey repoName, .store repoName nextRepo,
          .saveCall (insertRel st.releases repoName nextRepo) saveOk])
    ∧ lookupRel (insertRel st.releases repoName nextRepo) repoName
        = some nextRepo := by
  exact ⟨by simp [processKey, habs], lookupRel_insertRel_self _ _ _⟩

/-- C2 witness: the baseline law at scenario 1's concrete input (empty prior
state, queried v1.0.0): stored, persisted, nothing sent. -/
theorem run_baseline_witness :
    lookupRel (⟨[], none⟩ : EngineState).releases "acme/widget" = none
    ∧ (processKey ⟨[], none⟩ "acme/widget" (.ok sampleRepoV1) true
        = (⟨insertRel [] "acme/widget" sampleRepoV1,
            if true then
              some (marshalMap (insertRel [] "acme/widget" sampleRepoV1))
            else none⟩, [],
           [.readKey "acme/widget", .store "acme/widget" sampleRepoV1,
            .saveCall (insertRel [] "acme/widget" sampleRepoV1) true])
      ∧ lookupRel (insertRel [] "acme/widget" sampleRepoV1) "acme/widget"
          = some sampleRepoV1) :=
  ⟨rfl, run_baseline ⟨[], none⟩ "acme/widget" sampleRepoV1 true rfl⟩

/-- C10: a step touches only its own key: on a query error the step leaves
the state untouched and performs no read, send, store or save at all, and on
any outcome the stored snapshot of every other key is unchanged. -/
theorem run_step_frame (st : EngineState) (repoName : String)
    (qres : Except String Repository) (saveOk : Bool) :
    (∀ e, qres = .error e → processKey st repoName qres saveOk = (st, [], []))
    ∧ ∀ k', k' ≠ repoName →
        lookupRel (processKey st repoName qres saveOk).1.releases k'
          = lookupRel st.releases k' := by
  constructor
  · intro e he
    subst he
    rfl
  · intro k' hk
    match qres with
    | .error e => rfl
    | .ok nextRepo =>
      match hl : lookupRel st.releases repoName with
      | none => simp [processKey, hl, lookupRel_insertRel_ne _ _ _ _ hk]
      | some currRepo =>
        by_cases hlt :
            currRepo.Release.PublishedAt < nextRepo.Release.PublishedAt
        · simp [processKey, hl, hlt, lookupRel_insertRel_ne _ _ _ _ hk]
        · simp [processKey, hl, hlt]

/-- C10 witness: the frame property at concrete inputs: a failed query for
the stored key changes nothing, and a successful update of it leaves the
unrelated key `foo/bar` unchanged. -/
theorem run_step_frame_witness :
    ((Except.error "boom" : Except String Repository) = .error "boom"
      ∧ ("foo/bar" : String) ≠ "acme/widget")
    ∧ processKey sampleState "acme/widget"
        (.error "boom" : Except String Repository) true = (sampleState, [], [])
    ∧ lookupRel (processKey sampleState "acme/widget"
        (.ok sampleRepoV2) true).1.releases "foo/bar"
      = lookupRel sampleState.releases "foo/bar" :=
  ⟨⟨rfl, by decide⟩,
   (run_step_frame sampleState "acme/widget" (.error "boom") true).1 "boom" rfl,
   (run_step_frame sampleState "acme/widget" (.ok sampleRepoV2) true).2
     "foo/bar" (by decide)⟩

/-- C3 counterexample: a watch key with no slash is split into a single
component, so the access `s[1]` is out of range and the cycle loop aborts
with a runtime panic (modelled by `none`), refuting that a malformed key can
never cause a runtime error; moreover a key with an empty name component is
accepted without any error. -/
theorem run_malformed_key_counterexample :
    parseWatchKey "acmewidget" = none
    ∧ runCycle (fun _ _ => .error "unreachable") (fun _ => true)
        ["acmewidget"] ⟨[], none⟩ = none
    ∧ parseWatchKey "acme/" = some ("acme", "") :=
  ⟨rfl, rfl, rfl⟩

/-- C3 amended: a key that splits into at least two components (equivalently,
one containing a slash, with no non-emptiness requirement on either
component) never causes a runtime error anywhere in the cycle loop: when
every key of the watch list parses, the cycle always completes. -/
theorem run_wellformed_keys_no_panic
    (q : String → String → Except String Repository) (w : String → Bool)
    (keys : List String) (st : EngineState)
    (h : ∀ k ∈ keys, parseWatchKey k ≠ none) :
    runCycle q w keys st ≠ none := by
  induction keys generalizing st with
  | nil => simp [runCycle]
  | cons hd tl ih =>
    have hhd := h hd (List.mem_cons_self hd tl)
    match hp : parseWatchKey hd with
    | none => exact absurd hp hhd
    | some (owner, name) =>
      have htl : ∀ k ∈ tl, parseWatchKey k ≠ none :=
        fun k hk => h k (List.mem_cons_of_mem hd hk)
      have ihr := ih (processKey st hd (q owner name) (w hd)).1 htl
      simp only [runCycle, hp]
      match hc : runCycle q w tl (processKey st hd (q owner name) (w hd)).1 with
      | none => exact absurd hc ihr
      | some (st', out) => simp

/-- C3 witness: the amended no-panic statement at a concrete two-key watch
list whose keys both contain a slash. -/
theorem run_wellformed_keys_no_panic_witness :
    (∀ k ∈ ["acme/widget", "foo/bar"], parseWatchKey k ≠ none)
    ∧ runCycle (fun _ _ => .error "down") (fun _ => true)
        ["acme/widget", "foo/bar"] ⟨[], none⟩ ≠ none :=
  ⟨by decide,
   run_wellformed_keys_no_panic (fun _ _ => .error "down") (fun _ => true)
     ["acme/widget", "foo/bar"] ⟨[], none⟩ (by decide)⟩

/-- C4: a failing query is isolated: a cycle over a watch list containing a
key whose query fails behaves exactly like the cycle over the list with that
key removed, so every later key is still processed and can still send in the
same cycle. -/
theorem run_cycle_isolation (q : String → String → Except String Repository)
    (w : String → Bool) (pre post : List String) (a owner name e : String)
    (hparse : parseWatchKey a = some (owner, name))
    (hq : q owner name = .error e) (st : EngineState) :
    runCycle q w (pre ++ a :: post) st = runCycle q w (pre ++ post) st := by
  induction pre generalizing st with
  | nil =>
    simp only [List.nil_append, runCycle, hparse, hq]
    have hstep : processKey st a (.error e) (w a) = (st, [], []) := rfl
    rw [hstep]
    match hc : runCycle q w post st with
    | none => simp
    | some (st', out) => simp
  | cons hd tl ih =>
    simp only [List.cons_append, runCycle]
    match hp : parseWatchKey hd with
    | none => rfl
    | some (owner', name') =>
      simp only [List.append_eq]
      rw [ih]

/-- C4 witness: isolation at a concrete two-key list: with `acme/widget`
failing and `foo/bar` succeeding, the cycle equals the cycle over
`foo/bar` alone. -/
theorem run_cycle_isolation_witness :
    parseWatchKey "acme/widget" = some ("acme", "widget")
    ∧ (fun (o : String) (_ : String) =>
        if o = "acme" then (.error "down" : Except String Repository)
        else .ok sampleRepoV2) "acme" "widget" = .error "down"
    ∧ runCycle
        (fun o _ => if o = "acme" then .error "down" else .ok sampleRepoV2)
        (fun _ => true) (["acme/widget", "foo/bar"]) ⟨[], none⟩
      = runCycle
        (fun o _ => if o = "acme" then .error "down" else .ok sampleRepoV2)
        (fun _ => true) (["foo/bar"]) ⟨[], none⟩ :=
  ⟨rfl, rfl,
   run_cycle_isolation
     (fun o _ => if o = "acme" then .error "down" else .ok sampleRepoV2)
     (fun _ => true) [] ["foo/bar"] "acme/widget" "acme" "widget" "down"
     rfl rfl ⟨[], none⟩⟩

/-- C7: when the save attempt fails after a state mutation (first observation
of a key, or a strictly newer release of a stored key), the in-memory entry
keeps its new value, the file is untouched (memory is ahead of disk), and the
cycle goes on to process the rest of the list from the mutated state. -/
theorem run_save_failure_no_rollback (st : EngineState)
    (repoName owner name : String) (nextRepo : Repository)
    (q : String → String → Except String Repository) (w : String → Bool)
    (rest : List String)
    (hparse : parseWatchKey repoName = some (owner, name))
    (hq : q owner name = .ok nextRepo) (hw : w repoName = false)
    (hmut : lookupRel st.releases repoName = none
      ∨ ∃ currRepo, lookupRel st.releases repoName = some currRepo
        ∧ currRepo.Release.PublishedAt < nextRepo.Release.PublishedAt) :
    lookupRel (processKey st repoName (.ok nextRepo) false).1.releases repoName
      = some nextRepo
    ∧ (processKey st repoName (.ok nextRepo) false).1.file = st.file
    ∧ runCycle q w (repoName :: rest) st
      = Option.map
          (fun p => (p.1, (processKey st repoName (.ok nextRepo) false).2.1
            ++ p.2))
          (runCycle q w rest
            (processKey st repoName (.ok nextRepo) false).1) := by
  have hstep : (processKey st repoName (.ok nextRepo) false).1.releases
        = insertRel st.releases repoName nextRepo
      ∧ (processKey st repoName (.ok nextRepo) false).1.file = st.file := by
    rcases hmut with habs | ⟨currRepo, hcurr, hlt⟩
    · simp [processKey, habs]
    · simp [processKey, hcurr, hlt]
  refine ⟨?_, hstep.2, ?_⟩
  · rw [hstep.1]
    exact lookupRel_insertRel_self _ _ _
  · simp only [runCycle, hparse, hq, hw]
    match hc : runCycle q w rest (processKey st repoName (.ok nextRepo) false).1
      with
    | none => simp
    | some (st', out) => simp

/-- C7 witness: a failed save after observing v1.1.0 over stored v1.0.0
keeps v1.1.0 in memory, leaves the file at the v1.0.0 content, and the cycle
continues (here with an empty rest of the list). -/
theorem run_save_failure_no_rollback_witness :
    (parseWatchKey "acme/widget" = some ("acme", "widget")
      ∧ (fun (_ : String) (_ : String) =>
          (.ok sampleRepoV2 : Except String Repository)) "acme" "widget"
        = .ok sampleRepoV2
      ∧ (fun (_ : String) => false) "acme/widget" = false
      ∧ (lookupRel sampleState.releases "acme/widget" = none
        ∨ ∃ currRepo, lookupRel sampleState.releases "acme/widget"
            = some currRepo
          ∧ currRepo.Release.PublishedAt < sampleRepoV2.Release.PublishedAt))
    ∧ lookupRel (processKey sampleState "acme/widget"
        (.ok sampleRepoV2) false).1.releases "acme/widget" = some sampleRepoV2
    ∧ (processKey sampleState "acme/widget"
        (.ok sampleRepoV2) false).1.file = sampleState.file
    ∧ runCycle (fun _ _ => .ok sampleRepoV2) (fun _ => false)
        ["acme/widget"] sampleState
      = Option.map
          (fun p => (p.1, (processKey sampleState "acme/widget"
            (.ok sampleRepoV2) false).2.1 ++ p.2))
          (runCycle (fun _ _ => .ok sampleRepoV2) (fun _ => false) []
            (processKey sampleState "acme/widget" (.ok sampleRepoV2) false).1)
    :=
  ⟨⟨rfl, rfl, rfl, Or.inr ⟨sampleRepoV1, rfl, by decide⟩⟩,
   run_save_failure_no_rollback sampleState "acme/widget" "acme" "widget"
     sampleRepoV2 (fun _ _ => .ok sampleRepoV2) (fun _ => false) [] rfl rfl
     rfl (Or.inr ⟨sampleRepoV1, rfl, by decide⟩)⟩

/-- C5: persistence round-trips: loading the file written for a state `S`
yields `S` field-for-field, and re-saving a state just loaded writes content
that loads identically (save after load is a no-op on content). -/
theorem load_save_round_trip :
    (∀ S : ReleaseMap, LoadReleases (.content (marshalMap S)) = .ok S)
    ∧ ∀ (r : ReadResult) (S : ReleaseMap), LoadReleases r = .ok S →
        LoadReleases (.content (marshalMap S)) = LoadReleases r := by
  have h : ∀ S : ReleaseMap, LoadReleases (.content (marshalMap S)) = .ok S :=
    fun S => by simp [LoadReleases, unmarshalMap_marshalMap]
  exact ⟨h, fun r S hr => (h S).trans hr.symm⟩

/-- C5 witness: the round trip at the concrete one-entry state of
scenario 1. -/
theorem load_save_round_trip_witness :
    LoadReleases (.content (marshalMap [("acme/widget", sampleRepoV1)]))
      = .ok [("acme/widget", sampleRepoV1)]
    ∧ LoadReleases (.content (marshalMap [("acme/widget", sampleRepoV1)]))
      = LoadReleases (.content (marshalMap [("acme/widget", sampleRepoV1)])) :=
  ⟨load_save_round_trip.1 [("acme/widget", sampleRepoV1)],
   load_save_round_trip.2 (.content (marshalMap [("acme/widget", sampleRepoV1)]))
     [("acme/widget", sampleRepoV1)] (by rfl)⟩

/-- C6 counterexample: an existing file whose content is the empty JSON
object also loads as an empty state without error, so an empty, error-free
load does not happen exactly when the file is missing. -/
theorem load_empty_content_counterexample :
    LoadReleases (.content (Json.obj [])) = .ok []
    ∧ ReadResult.content (Json.obj []) ≠ ReadResult.notExist :=
  ⟨rfl, fun h => ReadResult.noConfusion h⟩

/-- C6 amended: a missing file loads as the empty state without error (though
an existing file with empty-mapping content does too); any other read failure
and any unmarshal failure is returned as an error to the caller, and on a
load error the engine continues with an empty in-memory map. -/
theorem load_error_taxonomy (j : Json) (r : ReadResult) (e : LoadError)
    (hj : unmarshalMap j = none) (hr : LoadReleases r = .error e) :
    LoadReleases .notExist = .ok []
    ∧ LoadReleases .readError = .error .readFailed
    ∧ LoadReleases (.content j) = .error .unmarshalFailed
    ∧ initReleases r = [] := by
  refine ⟨rfl, rfl, by simp [LoadReleases, hj], ?_⟩
  simp [initReleases, hr]

/-- C6 witness: the amended taxonomy at a concrete unparsable document (a
bare number) and a concrete failing read. -/
theorem load_error_taxonomy_witness :
    (unmarshalMap (Json.num 7) = none
      ∧ LoadReleases .readError = .error .readFailed)
    ∧ LoadReleases .notExist = .ok []
    ∧ LoadReleases .readError = .error .readFailed
    ∧ LoadReleases (.content (Json.num 7)) = .error .unmarshalFailed
    ∧ initReleases .readError = [] :=
  ⟨⟨rfl, rfl⟩, load_error_taxonomy (Json.num 7) .readError .readFailed rfl rfl⟩

/-- C8: write-through: whenever the trace of a step stores a snapshot into
the map, the very next action of the trace is a save call carrying the full
map that results from the step (which holds the stored snapshot), so the loop
never moves on from a mutation it has not attempted to persist. -/
theorem run_write_through (st : EngineState) (repoName : String)
    (qres : Except String Repository) (saveOk : Bool) (i : ℕ) (k : String)
    (r : Repository)
    (h : (processKey st repoName qres saveOk).2.2.get? i
      = some (.store k r)) :
    (processKey st repoName qres saveOk).2.2.get? (i + 1)
      = some (.saveCall (processKey st repoName qres saveOk).1.releases saveOk)
    ∧ lookupRel (processKey st repoName qres saveOk).1.releases k = some r := by
  match qres with
  | .error e =>
    simp [processKey, List.get?] at h
  | .ok nextRepo =>
    match hl : lookupRel st.releases repoName with
    | none =>
      simp only [processKey, hl]
      simp only [processKey, hl] at h
      match i with
      | 0 => simp [List.get?] at h
      | 1 =>
        simp only [List.get?, Option.some.injEq, Event.store.injEq] at h
        obtain ⟨hk, hr⟩ := h
        subst hk; subst hr
        exact ⟨rfl, lookupRel_insertRel_self _ _ _⟩
      | 2 => simp [List.get?] at h
      | n + 3 => simp [List.get?] at h
    | some currRepo =>
      by_cases hlt : currRepo.Release.PublishedAt < nextRepo.Release.PublishedAt
      · simp only [processKey, hl, if_pos hlt]
        simp only [processKey, hl, if_pos hlt] at h
        match i with
        | 0 => simp [List.get?] at h
        | 1 => simp [List.get?] at h
        | 2 =>
          simp only [List.get?, Option.some.injEq, Event.store.injEq] at h
          obtain ⟨hk, hr⟩ := h
          subst hk; subst hr
          exact ⟨rfl, lookupRel_insertRel_self _ _ _⟩
        | 3 => simp [List.get?] at h
        | n + 4 => simp [List.get?] at h
      · simp only [processKey, hl, if_neg hlt] at h
        match i with
        | 0 => simp [List.get?] at h
        | n + 1 => simp [List.get?] at h

/-- C8 witness: the write-through property at the concrete newer-release
step of scenario 2, whose trace stores at position 2 and saves at
position 3. -/
theorem run_write_through_witness :
    (processKey sampleState "acme/widget" (.ok sampleRepoV2) true).2.2.get? 2
      = some (.store "acme/widget" sampleRepoV2)
    ∧ ((processKey sampleState "acme/widget"
          (.ok sampleRepoV2) true).2.2.get? 3
        = some (.saveCall (processKey sampleState "acme/widget"
            (.ok sampleRepoV2) true).1.releases true)
      ∧ lookupRel (processKey sampleState "acme/widget"
          (.ok sampleRepoV2) true).1.releases "acme/widget"
        = some sampleRepoV2) :=
  ⟨rfl, run_write_through sampleState "acme/widget" (.ok sampleRepoV2) true 2
    "acme/widget" sampleRepoV2 rfl⟩

/-- C9: the query adapter fails (never succeeds with an empty or zero value)
when the repository has no releases, when the repository ID is not a string,
or when the first release's ID is not a string; on success it returns the
fetched release translated field-for-field, with the queried owner. -/
theorem query_errors_and_translation (owner : String) (repo : RawRepo) :
    (repo.Edges = [] → ∃ e, query owner (.ok repo) = .error e)
    ∧ (repo.ID = .nonString → ∃ e, query owner (.ok repo) = .error e)
    ∧ (∀ node rest, repo.Edges = node :: rest → node.ID = .nonString →
        ∃ e, query owner (.ok repo) = .error e)
    ∧ ∀ rid node rest relid, repo.ID = .str rid → repo.Edges = node :: rest →
        node.ID = .str relid →
        query owner (.ok repo)
          = .ok ⟨rid, repo.Name, owner, repo.Description, repo.URL,
                 ⟨relid, node.Name, node.Description, node.URL,
                  node.PublishedAt⟩⟩ := by
  refine ⟨?_, ?_, ?_, ?_⟩
  · intro hempty
    match hid : repo.ID with
    | .nonString =>
      exact ⟨"cannot convert repository id to string", by simp [query, hid]⟩
    | .str rid =>
      exact ⟨"cannot find any releases", by simp [query, hid, hempty]⟩
  · intro hid
    exact ⟨"cannot convert repository id to string", by simp [query, hid]⟩
  · intro node rest hedges hnode
    match hid : repo.ID with
    | .nonString =>
      exact ⟨"cannot convert repository id to string", by simp [query, hid]⟩
    | .str rid =>
      exact ⟨"cannot convert release id to string",
        by simp [query, hid, hedges, hnode]⟩
  · intro rid node rest relid hid hedges hnode
    simp [query, hid, hedges, hnode]

/-- C9 witness: the success translation and the no-release error at concrete
responses. -/
theorem query_errors_and_translation_witness :
    ((⟨.str "MDEwOlJl", "widget", "a widget", "https-url",
        [⟨.str "rel-2", "v1.1.0", "second", "https-url-2", 200⟩]⟩ :
        RawRepo).ID = .str "MDEwOlJl"
      ∧ (⟨.str "MDEwOlJl", "widget", "a widget", "https-url",
          [⟨.str "rel-2", "v1.1.0", "second", "https-url-2", 200⟩]⟩ :
          RawRepo).Edges
        = ⟨.str "rel-2", "v1.1.0", "second", "https-url-2", 200⟩ :: []
      ∧ (⟨.str "rel-2", "v1.1.0", "second", "https-url-2", 200⟩ :
          RawReleaseNode).ID = .str "rel-2")
    ∧ query "acme"
        (.ok ⟨.str "MDEwOlJl", "widget", "a widget", "https-url",
          [⟨.str "rel-2", "v1.1.0", "second", "https-url-2", 200⟩]⟩)
      = .ok sampleRepoV2
    ∧ ((⟨.str "MDEwOlJl", "widget", "a widget", "https-url", []⟩ :
        RawRepo).Edges = []
      ∧ ∃ e, query "acme"
          (.ok ⟨.str "MDEwOlJl", "widget", "a widget", "https-url", []⟩)
        = .error e) :=
  ⟨⟨rfl, rfl, rfl⟩,
   (query_errors_and_translation "acme"
     ⟨.str "MDEwOlJl", "widget", "a widget", "https-url",
      [⟨.str "rel-2", "v1.1.0", "second", "https-url-2", 200⟩]⟩).2.2.2
     "MDEwOlJl" ⟨.str "rel-2", "v1.1.0", "second", "https-url-2", 200⟩ []
     "rel-2" rfl rfl rfl,
   rfl,
   (query_errors_and_translation "acme"
     ⟨.str "MDEwOlJl", "widget", "a widget", "https-url", []⟩).1 rfl⟩
